import Mathlib

/-!
Shallow embedding of `deno-kv-topics` (src/mod.ts, src/types.ts).

The repository multiplexes logical "topics" over one Deno KV queue.
`mod.ts` holds two variants separated in the source: the current
`connectTopicQueue` factory (instance-scoped `listeners` map) and a legacy
module-level variant (global `listeners` map, envelope additionally carrying
`keysIfUndelivered`).  Both compute the topic identifier with
`JSON.stringify(topicKey)` where a topic key is
`string | (string | number | boolean)[]`.

JavaScript values are modelled as follows.  A JS `number` is an IEEE double:
every *finite* double is uniquely determined by its canonical ECMAScript
decimal string (the shortest round-tripping form, which is exactly what
`JSON.stringify` emits for it), so finite doubles are represented by that
canonical string; the non-finite doubles `NaN`, `Infinity` and `-Infinity`
are separate constructors, and `JSON.stringify` renders each of them as the
four characters `null`.  Strings are Lean `String`s (Unicode scalar
sequences) and `JSON.stringify` escapes them per ECMA-262 QuoteJSONString.
-/

namespace KvTopics

/-- A JavaScript `number`: a finite double identified by its canonical
ECMAScript string, or one of the non-finite values. -/
inductive JSNumber where
  | finite (repr : String)
  | nan
  | posInf
  | negInf
  deriving DecidableEq

/-- A primitive scalar allowed inside an array-form topic key
(`string | number | boolean`, from `src/types.ts`). -/
inductive JSPrim where
  | str (s : String)
  | num (n : JSNumber)
  | bool (b : Bool)
  deriving DecidableEq

/-- `Topic` from `src/types.ts`:
`string | (string | number | boolean)[]`. -/
inductive Topic where
  | str (s : String)
  | seq (elems : List JSPrim)
  deriving DecidableEq

/-- The lowercase hexadecimal digit for `n < 16`, as used by JSON
`\u00xy` escapes (ECMA-262 UnicodeEscape emits lowercase hex). -/
def hexDigit : Nat → Char
  | 0 => '0'
  | 1 => '1'
  | 2 => '2'
  | 3 => '3'
  | 4 => '4'
  | 5 => '5'
  | 6 => '6'
  | 7 => '7'
  | 8 => '8'
  | 9 => '9'
  | 10 => 'a'
  | 11 => 'b'
  | 12 => 'c'
  | 13 => 'd'
  | 14 => 'e'
  | _ => 'f'

/-- ECMA-262 QuoteJSONString escaping of one character: `"` and `\` get a
backslash escape, the five named control characters get their two-character
escapes, every other control character below U+0020 gets a `\u00xy` escape,
and everything else is emitted literally. -/
def escapeChar (c : Char) : List Char :=
  if c = '"' then ['\\', '"']
  else if c = '\\' then ['\\', '\\']
  else if c = Char.ofNat 8 then ['\\', 'b']
  else if c = Char.ofNat 9 then ['\\', 't']
  else if c = Char.ofNat 10 then ['\\', 'n']
  else if c = Char.ofNat 12 then ['\\', 'f']
  else if c = Char.ofNat 13 then ['\\', 'r']
  else if c.toNat < 32 then
    ['\\', 'u', '0', '0', hexDigit (c.toNat / 16), hexDigit (c.toNat % 16)]
  else [c]

/-- QuoteJSONString applied to a whole character sequence. -/
def escapeString : List Char → List Char
  | [] => []
  | c :: rest => escapeChar c ++ escapeString rest

/-- `JSON.stringify` of a JS string: the escaped body wrapped in quotes. -/
def jsonQuote (s : String) : List Char :=
  '"' :: (escapeString s.data ++ ['"'])

/-- `JSON.stringify` of a JS number: the canonical decimal string for a
finite double, and the literal `null` for `NaN` and `±Infinity`. -/
def stringifyNumber : JSNumber → List Char
  | .finite r => r.data
  | .nan => ['n', 'u', 'l', 'l']
  | .posInf => ['n', 'u', 'l', 'l']
  | .negInf => ['n', 'u', 'l', 'l']

/-- `JSON.stringify` of one scalar array element. -/
def stringifyPrim : JSPrim → List Char
  | .str s => jsonQuote s
  | .num n => stringifyNumber n
  | .bool b => if b then ['t', 'r', 'u', 'e'] else ['f', 'a', 'l', 's', 'e']

/-- Tail of SerializeJSONArray's comma join: each further element is
preceded by a comma. -/
def jsonSeqTail : List JSPrim → List Char
  | [] => []
  | p :: ps => ',' :: (stringifyPrim p ++ jsonSeqTail ps)

/-- SerializeJSONArray's comma join of the serialized elements. -/
def jsonSeq : List JSPrim → List Char
  | [] => []
  | p :: ps => stringifyPrim p ++ jsonSeqTail ps

/-- `JSON.stringify` restricted to the `Topic` domain: a top-level string
is quoted, a top-level array is the bracketed comma join. -/
def jsonStringify : Topic → String
  | .str s => String.mk (jsonQuote s)
  | .seq xs => String.mk ('[' :: (jsonSeq xs ++ [']']))

/-- `getTopicId` from src/mod.ts line 10 (and `computeQueueId` of the
legacy variant): `JSON.stringify(topicKey)`. -/
def getTopicId (topicKey : Topic) : String :=
  jsonStringify topicKey

/-- JS `Map.prototype.set`: replace the value in place if the key is
present (size unchanged), otherwise append a new entry. -/
def mapSet {H : Type} : List (String × H) → String → H → List (String × H)
  | [], k, v => [(k, v)]
  | (k1, v1) :: rest, k, v =>
    if k1 = k then (k, v) :: rest else (k1, v1) :: mapSet rest k v

/-- JS `Map.prototype.get`. -/
def mapGet {H : Type} : List (String × H) → String → Option H
  | [], _ => none
  | (k1, v1) :: rest, k => if k1 = k then some v1 else mapGet rest k

/-- JS `Map.prototype.has`. -/
def mapHas {H : Type} (m : List (String × H)) (k : String) : Bool :=
  (mapGet m k).isSome

/-- JS `Map.prototype.size`. -/
def mapSize {H : Type} (m : List (String × H)) : Nat :=
  m.length

/-- The single recognised value of the `__mieszko_topics__` format marker:
the JS number `1`. -/
def recognisedMarker : JSPrim :=
  JSPrim.num (JSNumber.finite "1")

/-- `WrappedPayload` from src/types.ts: the envelope the current variant
stores in the physical queue.  `marker` is the `__mieszko_topics__` field;
`none` models the field being absent or `undefined` on a raw message, and
`some v` models it holding the scalar `v`. -/
structure WrappedPayload (α : Type) where
  topicKey : Topic
  payload : α
  marker : Option JSPrim
  deriving DecidableEq

/-- A `Deno.KvKey`, opaque to the router; its parts are modelled as
scalars since the router never inspects them. -/
abbrev KvKey : Type := List JSPrim

/-- The options bag of `Deno.Kv.enqueue`, forwarded verbatim by the
router (`delay`, `backOffSchedule`, `keysIfUndelivered`; `none` models an
omitted field). -/
structure EnqueueOptions where
  delay : Option Nat
  backOffSchedule : Option (List Nat)
  keysIfUndelivered : Option (List KvKey)
  deriving DecidableEq

/-- The legacy variant's `WrappedPayload`: it additionally carries the
`keysIfUndelivered` fallback keys inside the envelope. -/
structure LegacyWrappedPayload (α : Type) where
  queueKey : Topic
  payload : α
  keysIfUndelivered : List KvKey
  marker : Option JSPrim
  deriving DecidableEq

/-- The two errors `enqueue` can throw (src/mod.ts lines 44 and 59). -/
inductive EnqueueError where
  | noListener (queueId : String)
  | enqueueFailed (queueId : String)
  deriving DecidableEq

/-- The message strings of the `Error` values thrown by `enqueue`. -/
def enqueueErrorMessage : EnqueueError → String
  | .noListener q => "No listener for queue " ++ q
  | .enqueueFailed q => "Failed to enqueue into " ++ q

/-- The two errors the dispatch callback can throw
(src/mod.ts lines 86 and 95). -/
inductive DispatchError where
  | unrecognisedFormat
  | noListener (queueId : String)
  deriving DecidableEq

/-- The message strings of the `Error` values thrown by the dispatch
callback. -/
def dispatchErrorMessage : DispatchError → String
  | .unrecognisedFormat => "Unrecognised payload format"
  | .noListener q => "No listener for queue " ++ q

/-- State of one `connectTopicQueue` instance.  `listeners` is the
instance's `Map`; `subscribeCount` counts how many times
`kv.listenQueue` has been invoked on the underlying KV connection;
`kvQueue` records every `(envelope, options)` pair submitted through
`kv.enqueue`; `kvClosed` records whether `kv.close()` ran.  Handlers are
opaque values of a parameter type `H`, payloads of a parameter type `α`. -/
structure RouterState (H α : Type) where
  listeners : List (String × H)
  subscribeCount : Nat
  disableListenQueue : Bool
  kvQueue : List (WrappedPayload α × EnqueueOptions)
  kvClosed : Bool
  deriving DecidableEq

/-- The state right after `connectTopicQueue` returns: empty listener
map, no subscription yet, nothing enqueued. -/
def initialState (H α : Type) (disableListenQueue : Bool) : RouterState H α :=
  ⟨[], 0, disableListenQueue, [], false⟩

/-- `listenQueue` from src/mod.ts lines 70-99: insert/replace the handler
under `getTopicId topicKey`, then — unless the map now holds more than one
entry or listening is disabled — register the dispatch callback with
`kv.listenQueue` (modelled by incrementing `subscribeCount`).  Note the
guard `listeners.size > 1` is evaluated *after* the `set`. -/
def listenQueue {H α : Type} (st : RouterState H α) (topicKey : Topic)
    (callback : H) : RouterState H α :=
  let queueId := getTopicId topicKey
  let listeners1 := mapSet st.listeners queueId callback
  if mapSize listeners1 > 1 || st.disableListenQueue then
    { st with listeners := listeners1 }
  else
    { st with listeners := listeners1, subscribeCount := st.subscribeCount + 1 }

/-- The envelope `enqueue` builds (src/mod.ts lines 47-51):
`{ topicKey, payload, __mieszko_topics__: 1 }`. -/
def encodeEnvelope {α : Type} (topicKey : Topic) (payload : α) :
    WrappedPayload α :=
  ⟨topicKey, payload, some recognisedMarker⟩

/-- Result of one `enqueue` call: the thrown error or success, the router
state afterwards, and the atomic operation's staged list afterwards
(`none` when no atomic handle was supplied). -/
structure EnqueueResult (H α : Type) where
  result : Except EnqueueError Unit
  state : RouterState H α
  atomic : Option (List (WrappedPayload α × EnqueueOptions))

/-- `enqueue` from src/mod.ts lines 35-62.  An atomic handle is modelled
by the list of `(envelope, options)` pairs already staged on that
`Deno.AtomicOperation`; `kvEnqueueOk` models the `ok` field of the value
`kv.enqueue` resolves to. -/
def enqueue {H α : Type} (st : RouterState H α) (topicKey : Topic)
    (payload : α) (options : EnqueueOptions)
    (atomic : Option (List (WrappedPayload α × EnqueueOptions)))
    (kvEnqueueOk : Bool) : EnqueueResult H α :=
  let queueId := getTopicId topicKey
  if mapHas st.listeners queueId = false then
    ⟨Except.error (EnqueueError.noListener queueId), st, atomic⟩
  else
    let wrappedPayload := encodeEnvelope topicKey payload
    match atomic with
    | some ops => ⟨Except.ok (), st, some (ops ++ [(wrappedPayload, options)])⟩
    | none =>
      if kvEnqueueOk then
        ⟨Except.ok (),
          { st with kvQueue := st.kvQueue ++ [(wrappedPayload, options)] },
          none⟩
      else ⟨Except.error (EnqueueError.enqueueFailed queueId), st, none⟩

/-- The dispatch callback registered with `kv.listenQueue`
(src/mod.ts lines 80-97): reject the message unless the marker is exactly
`1`, then look the handler up under the recomputed identifier;
`Except.ok (listener, p)` means the callback invokes `listener` with
payload `p`, `Except.error e` means it throws `e` without invoking any
handler. -/
def dispatch {H α : Type} (listeners : List (String × H))
    (msg : WrappedPayload α) : Except DispatchError (H × α) :=
  if msg.marker ≠ some recognisedMarker then
    Except.error DispatchError.unrecognisedFormat
  else
    let queueId := getTopicId msg.topicKey
    match mapGet listeners queueId with
    | some listener => Except.ok (listener, msg.payload)
    | none => Except.error (DispatchError.noListener queueId)

/-- The codec half of the dispatch callback: the decoded
`(topic identifier, payload)` pair of an envelope, or the format error. -/
def decodeEnvelope {α : Type} (msg : WrappedPayload α) :
    Except DispatchError (String × α) :=
  if msg.marker ≠ some recognisedMarker then
    Except.error DispatchError.unrecognisedFormat
  else
    Except.ok (getTopicId msg.topicKey, msg.payload)

/-- One delivery of the dispatch callback viewed as a step on the router
state: the callback body (src/mod.ts lines 80-97) contains no
`set`/`delete` on `listeners` — it only reads the map — so its
translation threads the state through unchanged. -/
def dispatchStep {H α : Type} (st : RouterState H α) (msg : WrappedPayload α) :
    Except DispatchError (H × α) × RouterState H α :=
  (dispatch st.listeners msg, st)

/-- `close` from src/mod.ts lines 104-106: `kv.close()`. -/
def closeConn {H α : Type} (st : RouterState H α) : RouterState H α :=
  { st with kvClosed := true }

/-- The envelope the legacy variant's `enqueue` builds (legacy lines of
mod.ts): `{ queueKey, payload, keysIfUndelivered: options.keysIfUndelivered
?? [], __mieszko_topics__: 1 }`. -/
def legacyWrap {α : Type} (queueKey : Topic) (payload : α)
    (options : EnqueueOptions) : LegacyWrappedPayload α :=
  ⟨queueKey, payload, options.keysIfUndelivered.getD [], some recognisedMarker⟩

/-- The codec half of the legacy variant's dispatch callback. -/
def legacyDecode {α : Type} (msg : LegacyWrappedPayload α) :
    Except DispatchError (String × α) :=
  if msg.marker ≠ some recognisedMarker then
    Except.error DispatchError.unrecognisedFormat
  else
    Except.ok (getTopicId msg.queueKey, msg.payload)

/-- Characters that can occur in the canonical ECMAScript string of a
finite double: digits, sign, decimal point, exponent marker. -/
def isNumChar (c : Char) : Bool :=
  c.isDigit || c = '-' || c = '+' || c = '.' || c = 'e' || c = 'E'

/-- A `JSNumber` that is an actual finite double: ECMAScript guarantees
the canonical string of a finite double is a nonempty word over the
numeric alphabet. -/
def wfNumber : JSNumber → Bool
  | .finite r => !r.data.isEmpty && r.data.all isNumChar
  | _ => false

/-- A scalar free of non-finite numbers. -/
def wfPrim : JSPrim → Bool
  | .num n => wfNumber n
  | _ => true

/-- A topic key whose numeric elements are all finite doubles. -/
def wfTopic : Topic → Bool
  | .str _ => true
  | .seq xs => xs.all wfPrim

/-- The value of one hexadecimal digit character, lowercase letters. -/
def parseHexDigit (c : Char) : Option Nat :=
  if 48 ≤ c.toNat && c.toNat ≤ 57 then some (c.toNat - 48)
  else if 97 ≤ c.toNat && c.toNat ≤ 102 then some (c.toNat - 87)
  else none

/-- Decoder for a single coded character of a QuoteJSONString body:
returns the decoded character's code and the remaining input, `none` on
the closing quote or malformed input.  Used to prove the escaping
injective. -/
def decodeOne : List Char → Option (Nat × List Char)
  | [] => none
  | c :: rest =>
    if c = '"' then none
    else if c = '\\' then
      match rest with
      | [] => none
      | e :: rest2 =>
        if e = '"' then some (34, rest2)
        else if e = '\\' then some (92, rest2)
        else if e = 'b' then some (8, rest2)
        else if e = 't' then some (9, rest2)
        else if e = 'n' then some (10, rest2)
        else if e = 'f' then some (12, rest2)
        else if e = 'r' then some (13, rest2)
        else if e = 'u' then
          match rest2 with
          | h1 :: h2 :: h3 :: h4 :: rest3 =>
            match parseHexDigit h1, parseHexDigit h2, parseHexDigit h3,
                parseHexDigit h4 with
            | some a, some b, some c2, some d =>
              some ((((a * 16 + b) * 16 + c2) * 16 + d), rest3)
            | _, _, _, _ => none
          | _ => none
        else none
    else some (c.toNat, rest)

/-- The input does not start with a numeric-alphabet character, so a
number serialization cannot extend into it. -/
def noNumHead : List Char → Prop
  | [] => True
  | c :: _ => isNumChar c = false

theorem stringDataInj {s1 s2 : String} (h : s1.data = s2.data) : s1 = s2 := by
  cases s1
  cases s2
  exact congrArg String.mk h

theorem hexDigit_parse : ∀ n, n < 16 → parseHexDigit (hexDigit n) = some n := by
  decide

theorem decodeOne_escape (c : Char) (rest : List Char) :
    decodeOne (escapeChar c ++ rest) = some (c.toNat, rest) := by
  by_cases h1 : c = '"'
  · subst h1; rfl
  by_cases h2 : c = '\\'
  · subst h2; rfl
  by_cases h3 : c = Char.ofNat 8
  · subst h3; rfl
  by_cases h4 : c = Char.ofNat 9
  · subst h4; rfl
  by_cases h5 : c = Char.ofNat 10
  · subst h5; rfl
  by_cases h6 : c = Char.ofNat 12
  · subst h6; rfl
  by_cases h7 : c = Char.ofNat 13
  · subst h7; rfl
  by_cases h8 : c.toNat < 32
  · have e1 : parseHexDigit (hexDigit (c.toNat / 16)) = some (c.toNat / 16) :=
      hexDigit_parse _ (by omega)
    have e2 : parseHexDigit (hexDigit (c.toNat % 16)) = some (c.toNat % 16) :=
      hexDigit_parse _ (by omega)
    simp [escapeChar, h1, h2, h3, h4, h5, h6, h7, h8, decodeOne, e1, e2,
      show parseHexDigit '0' = some 0 from rfl]
    omega
  · simp [escapeChar, h1, h2, h3, h4, h5, h6, h7, h8, decodeOne]

theorem escape_body_inj : ∀ (s1 s2 r1 r2 : List Char),
    escapeString s1 ++ '"' :: r1 = escapeString s2 ++ '"' :: r2 →
    s1 = s2 ∧ r1 = r2 := by
  intro s1
  induction s1 with
  | nil =>
    intro s2 r1 r2 h
    cases s2 with
    | nil =>
      simp only [escapeString, List.nil_append] at h
      injection h with _ h2
      exact ⟨rfl, h2⟩
    | cons c2 t2 =>
      exfalso
      have hd := decodeOne_escape c2 (escapeString t2 ++ '"' :: r2)
      simp only [escapeString, List.nil_append, List.append_assoc] at h
      rw [← h] at hd
      simp [decodeOne] at hd
  | cons c1 t1 ih =>
    intro s2 r1 r2 h
    cases s2 with
    | nil =>
      exfalso
      have hd := decodeOne_escape c1 (escapeString t1 ++ '"' :: r1)
      simp only [escapeString, List.nil_append, List.append_assoc] at h
      rw [h] at hd
      simp [decodeOne] at hd
    | cons c2 t2 =>
      have hd1 := decodeOne_escape c1 (escapeString t1 ++ '"' :: r1)
      have hd2 := decodeOne_escape c2 (escapeString t2 ++ '"' :: r2)
      simp only [escapeString, List.append_assoc] at h
      rw [h] at hd1
      rw [hd2] at hd1
      simp only [Option.some.injEq, Prod.mk.injEq] at hd1
      obtain ⟨hc, hrest⟩ := hd1
      have hc12 : c2 = c1 := by
        have h0 := congrArg Char.ofNat hc
        rwa [Char.ofNat_toNat, Char.ofNat_toNat] at h0
      obtain ⟨ht, hr⟩ := ih t2 r1 r2 hrest.symm
      exact ⟨by rw [hc12, ht], hr⟩

theorem numSpan_inj : ∀ (s1 s2 r1 r2 : List Char),
    s1.all isNumChar = true → s2.all isNumChar = true →
    noNumHead r1 → noNumHead r2 →
    s1 ++ r1 = s2 ++ r2 → s1 = s2 ∧ r1 = r2 := by
  intro s1
  induction s1 with
  | nil =>
    intro s2 r1 r2 a1 a2 nh1 nh2 h
    cases s2 with
    | nil => exact ⟨rfl, by simpa using h⟩
    | cons d u =>
      exfalso
      simp only [List.nil_append, List.cons_append] at h
      subst h
      simp only [noNumHead] at nh1
      simp only [List.all_cons, Bool.and_eq_true] at a2
      rw [a2.1] at nh1
      exact Bool.noConfusion nh1
  | cons c t ih =>
    intro s2 r1 r2 a1 a2 nh1 nh2 h
    cases s2 with
    | nil =>
      exfalso
      simp only [List.nil_append, List.cons_append] at h
      rw [← h] at nh2
      simp only [noNumHead] at nh2
      simp only [List.all_cons, Bool.and_eq_true] at a1
      rw [a1.1] at nh2
      exact Bool.noConfusion nh2
    | cons d u =>
      simp only [List.cons_append] at h
      injection h with hcd h2
      simp only [List.all_cons, Bool.and_eq_true] at a1 a2
      obtain ⟨ht, hr⟩ := ih u r1 r2 a1.2 a2.2 nh1 nh2 h2
      exact ⟨by rw [hcd, ht], hr⟩

theorem wfNumber_finite {n : JSNumber} (h : wfNumber n = true) :
    ∃ r, n = JSNumber.finite r ∧ r.data ≠ [] ∧ r.data.all isNumChar = true := by
  cases n with
  | finite r =>
    simp only [wfNumber, Bool.and_eq_true, Bool.not_eq_true'] at h
    refine ⟨r, rfl, ?_, h.2⟩
    simpa [List.isEmpty_iff] using h.1
  | nan => simp [wfNumber] at h
  | posInf => simp [wfNumber] at h
  | negInf => simp [wfNumber] at h

theorem stringifyPrim_inj : ∀ (p q : JSPrim) (r1 r2 : List Char),
    wfPrim p = true → wfPrim q = true → noNumHead r1 → noNumHead r2 →
    stringifyPrim p ++ r1 = stringifyPrim q ++ r2 → p = q ∧ r1 = r2 := by
  intro p q r1 r2 wp wq nh1 nh2 h
  cases p with
  | str s1 =>
    cases q with
    | str s2 =>
      simp only [stringifyPrim, jsonQuote, List.cons_append, List.append_assoc,
        List.singleton_append] at h
      injection h with _ h2
      obtain ⟨hd, hr⟩ := escape_body_inj s1.data s2.data r1 r2 h2
      exact ⟨by rw [stringDataInj hd], hr⟩
    | num n =>
      exfalso
      obtain ⟨rn, rfl, hne, hall⟩ := wfNumber_finite (by simpa [wfPrim] using wq)
      cases hrd : rn.data with
      | nil => exact hne hrd
      | cons d ds =>
        simp only [stringifyPrim, jsonQuote, stringifyNumber, hrd,
          List.cons_append, List.append_assoc, List.singleton_append] at h
        injection h with h1 _
        rw [hrd] at hall
        simp only [List.all_cons, Bool.and_eq_true] at hall
        rw [← h1] at hall
        exact absurd hall.1 (by decide)
    | bool b =>
      exfalso
      cases b <;>
        simp only [stringifyPrim, jsonQuote, List.cons_append,
          List.append_assoc, List.singleton_append] at h <;>
        injection h with h1 _ <;> exact absurd h1 (by decide)
  | num n =>
    cases q with
    | str s2 =>
      exfalso
      obtain ⟨rn, rfl, hne, hall⟩ := wfNumber_finite (by simpa [wfPrim] using wp)
      cases hrd : rn.data with
      | nil => exact hne hrd
      | cons d ds =>
        simp only [stringifyPrim, jsonQuote, stringifyNumber, hrd,
          List.cons_append, List.append_assoc, List.singleton_append] at h
        injection h with h1 _
        rw [hrd] at hall
        simp only [List.all_cons, Bool.and_eq_true] at hall
        rw [h1] at hall
        exact absurd hall.1 (by decide)
    | num m =>
      obtain ⟨rn, rfl, hne1, hall1⟩ := wfNumber_finite (by simpa [wfPrim] using wp)
      obtain ⟨rm, rfl, hne2, hall2⟩ := wfNumber_finite (by simpa [wfPrim] using wq)
      simp only [stringifyPrim, stringifyNumber] at h
      obtain ⟨hd, hr⟩ := numSpan_inj rn.data rm.data r1 r2 hall1 hall2 nh1 nh2 h
      exact ⟨by rw [stringDataInj hd], hr⟩
    | bool b =>
      exfalso
      obtain ⟨rn, rfl, hne, hall⟩ := wfNumber_finite (by simpa [wfPrim] using wp)
      cases hrd : rn.data with
      | nil => exact hne hrd
      | cons d ds =>
        rw [hrd] at hall
        simp only [List.all_cons, Bool.and_eq_true] at hall
        cases b <;>
          simp only [stringifyPrim, stringifyNumber, hrd, List.cons_append,
            Bool.cond_true, Bool.cond_false, if_true, if_false] at h <;>
          injection h with h1 _
        · rw [h1] at hall; exact absurd hall.1 (by decide)
        · rw [h1] at hall; exact absurd hall.1 (by decide)
  | bool b1 =>
    cases q with
    | str s2 =>
      exfalso
      cases b1 <;>
        simp only [stringifyPrim, jsonQuote, List.cons_append,
          List.append_assoc, List.singleton_append] at h <;>
        injection h with h1 _ <;> exact absurd h1 (by decide)
    | num m =>
      exfalso
      obtain ⟨rm, rfl, hne, hall⟩ := wfNumber_finite (by simpa [wfPrim] using wq)
      cases hrd : rm.data with
      | nil => exact hne hrd
      | cons d ds =>
        rw [hrd] at hall
        simp only [List.all_cons, Bool.and_eq_true] at hall
        cases b1 <;>
          simp only [stringifyPrim, stringifyNumber, hrd,
            List.cons_append] at h <;>
          injection h with h1 _
        · rw [← h1] at hall; exact absurd hall.1 (by decide)
        · rw [← h1] at hall; exact absurd hall.1 (by decide)
    | bool b2 =>
      cases b1 <;> cases b2 <;>
        simp only [stringifyPrim, List.cons_append] at h ⊢
      · injection h with _ h; injection h with _ h; injection h with _ h
        injection h with _ h; injection h with _ h
        exact ⟨trivial, h⟩
      · exfalso; injection h with h1 _; exact absurd h1 (by decide)
      · exfalso; injection h with h1 _; exact absurd h1 (by decide)
      · injection h with _ h; injection h with _ h; injection h with _ h
        injection h with _ h
        exact ⟨trivial, h⟩

theorem noNumHead_seqTail (t : List JSPrim) (r : List Char) :
    noNumHead (jsonSeqTail t ++ ']' :: r) := by
  cases t with
  | nil =>
    simp only [jsonSeqTail, List.nil_append]
    show isNumChar ']' = false
    decide
  | cons p ps =>
    simp only [jsonSeqTail, List.cons_append]
    show isNumChar ',' = false
    decide

theorem seqTail_inj : ∀ (t u : List JSPrim) (r1 r2 : List Char),
    t.all wfPrim = true → u.all wfPrim = true →
    jsonSeqTail t ++ ']' :: r1 = jsonSeqTail u ++ ']' :: r2 →
    t = u ∧ r1 = r2 := by
  intro t
  induction t with
  | nil =>
    intro u r1 r2 _ wu h
    cases u with
    | nil =>
      simp only [jsonSeqTail, List.nil_append] at h
      injection h with _ h2
      exact ⟨rfl, h2⟩
    | cons q u2 =>
      exfalso
      simp only [jsonSeqTail, List.nil_append, List.cons_append] at h
      injection h with h1 _
      exact absurd h1 (by decide)
  | cons p t2 ih =>
    intro u r1 r2 wt wu h
    cases u with
    | nil =>
      exfalso
      simp only [jsonSeqTail, List.nil_append, List.cons_append] at h
      injection h with h1 _
      exact absurd h1 (by decide)
    | cons q u2 =>
      simp only [jsonSeqTail, List.cons_append, List.append_assoc] at h
      injection h with _ h2
      simp only [List.all_cons, Bool.and_eq_true] at wt wu
      obtain ⟨hpq, hrest⟩ := stringifyPrim_inj p q _ _ wt.1 wu.1
        (noNumHead_seqTail t2 r1) (noNumHead_seqTail u2 r2) h2
      obtain ⟨htu, hr⟩ := ih u2 r1 r2 wt.2 wu.2 hrest
      exact ⟨by rw [hpq, htu], hr⟩

theorem stringifyPrim_head (p : JSPrim) (hp : wfPrim p = true) :
    ∃ c cs, stringifyPrim p = c :: cs ∧ c ≠ ']' := by
  cases p with
  | str s => exact ⟨'"', escapeString s.data ++ ['"'], rfl, by decide⟩
  | num n =>
    obtain ⟨r, rfl, hne, hall⟩ := wfNumber_finite (by simpa [wfPrim] using hp)
    cases hrd : r.data with
    | nil => exact absurd hrd hne
    | cons d ds =>
      refine ⟨d, ds, by simp [stringifyPrim, stringifyNumber, hrd], ?_⟩
      rw [hrd] at hall
      simp only [List.all_cons, Bool.and_eq_true] at hall
      intro hdd
      rw [hdd] at hall
      exact absurd hall.1 (by decide)
  | bool b =>
    cases b with
    | false => exact ⟨'f', ['a', 'l', 's', 'e'], rfl, by decide⟩
    | true => exact ⟨'t', ['r', 'u', 'e'], rfl, by decide⟩

theorem jsonSeq_inj : ∀ (xs ys : List JSPrim) (r1 r2 : List Char),
    xs.all wfPrim = true → ys.all wfPrim = true →
    jsonSeq xs ++ ']' :: r1 = jsonSeq ys ++ ']' :: r2 →
    xs = ys ∧ r1 = r2 := by
  intro xs ys r1 r2 wx wy h
  cases xs with
  | nil =>
    cases ys with
    | nil =>
      simp only [jsonSeq, List.nil_append] at h
      injection h with _ h2
      exact ⟨rfl, h2⟩
    | cons q ys2 =>
      exfalso
      simp only [List.all_cons, Bool.and_eq_true] at wy
      obtain ⟨c, cs, hsq, hcne⟩ := stringifyPrim_head q wy.1
      simp only [jsonSeq, List.nil_append, hsq, List.cons_append,
        List.append_assoc] at h
      injection h with h1 _
      exact hcne h1.symm
  | cons p xs2 =>
    cases ys with
    | nil =>
      exfalso
      simp only [List.all_cons, Bool.and_eq_true] at wx
      obtain ⟨c, cs, hsp, hcne⟩ := stringifyPrim_head p wx.1
      simp only [jsonSeq, List.nil_append, hsp, List.cons_append,
        List.append_assoc] at h
      injection h with h1 _
      exact hcne h1
    | cons q ys2 =>
      simp only [jsonSeq, List.append_assoc] at h
      simp only [List.all_cons, Bool.and_eq_true] at wx wy
      obtain ⟨hpq, hrest⟩ := stringifyPrim_inj p q _ _ wx.1 wy.1
        (noNumHead_seqTail xs2 r1) (noNumHead_seqTail ys2 r2) h
      obtain ⟨ht, hr⟩ := seqTail_inj xs2 ys2 r1 r2 wx.2 wy.2 hrest
      exact ⟨by rw [hpq, ht], hr⟩

theorem getTopicId_injective (t1 t2 : Topic) (w1 : wfTopic t1 = true)
    (w2 : wfTopic t2 = true) (h : getTopicId t1 = getTopicId t2) : t1 = t2 := by
  cases t1 with
  | str s1 =>
    cases t2 with
    | str s2 =>
      simp only [getTopicId, jsonStringify] at h
      injection h with hdata
      simp only [jsonQuote] at hdata
      injection hdata with _ h2
      obtain ⟨hd, _⟩ := escape_body_inj s1.data s2.data [] [] h2
      rw [stringDataInj hd]
    | seq ys =>
      exfalso
      simp only [getTopicId, jsonStringify] at h
      injection h with hdata
      simp only [jsonQuote] at hdata
      injection hdata with h1 _
      exact absurd h1 (by decide)
  | seq xs =>
    cases t2 with
    | str s2 =>
      exfalso
      simp only [getTopicId, jsonStringify] at h
      injection h with hdata
      simp only [jsonQuote] at hdata
      injection hdata with h1 _
      exact absurd h1 (by decide)
    | seq ys =>
      simp only [getTopicId, jsonStringify] at h
      injection h with hdata
      injection hdata with _ h2
      obtain ⟨hxy, _⟩ := jsonSeq_inj xs ys [] []
        (by simpa [wfTopic] using w1) (by simpa [wfTopic] using w2) h2
      rw [hxy]

theorem mapGet_set_self {H : Type} (m : List (String × H)) (k : String)
    (v : H) : mapGet (mapSet m k v) k = some v := by
  induction m with
  | nil => simp [mapSet, mapGet]
  | cons kv rest ih =>
    obtain ⟨k1, v1⟩ := kv
    by_cases h : k1 = k
    · simp [mapSet, h, mapGet]
    · simp [mapSet, h, mapGet, ih]

theorem mapGet_set_ne {H : Type} (m : List (String × H)) (k k2 : String)
    (v : H) (h : k ≠ k2) : mapGet (mapSet m k v) k2 = mapGet m k2 := by
  induction m with
  | nil => simp [mapSet, mapGet, h]
  | cons kv rest ih =>
    obtain ⟨k1, v1⟩ := kv
    by_cases h1 : k1 = k
    · subst h1
      simp [mapSet, mapGet, h]
    · simp [mapSet, h1, mapGet, ih]

theorem listenQueue_listeners {H α : Type} (st : RouterState H α)
    (topicKey : Topic) (callback : H) :
    (listenQueue st topicKey callback).listeners =
      mapSet st.listeners (getTopicId topicKey) callback := by
  simp only [listenQueue]
  split <;> rfl

/-- C1: the claim states that on a listening-enabled instance only the
first `listenQueue` call subscribes to the physical queue, and that every
subsequent call — including one whose topic identifier was already
registered — never calls `kv.listenQueue` again.  The code violates this:
the guard `listeners.size > 1 || disableListenQueue` is evaluated *after*
`listeners.set(queueId, callback)`, so re-registering the sole registered
topic leaves the size at 1 and `kv.listenQueue` is invoked a second time
(which the underlying KV connection does not even permit).  Evaluating the
model at that input: the first call subscribes once, and the duplicate
second call subscribes again. -/
theorem C1_duplicate_topic_resubscribes :
    (listenQueue (initialState Nat Nat false) (Topic.str "A") 0).subscribeCount
      = 1 ∧
    (listenQueue (listenQueue (initialState Nat Nat false) (Topic.str "A") 0)
        (Topic.str "A") 1).subscribeCount = 2 :=
  ⟨rfl, rfl⟩

/-- C2: `enqueue` on an instance with no handler registered for the
topic's identifier throws `No listener for queue <id>` — the error value
carries the identifier and the message embeds it — and neither
`kv.enqueue` nor `atomic.enqueue` runs: the router state (including the
physical queue) and the supplied atomic operation come back unchanged. -/
theorem C2_enqueue_no_listener {H α : Type} (st : RouterState H α)
    (topicKey : Topic) (payload : α) (options : EnqueueOptions)
    (atomic : Option (List (WrappedPayload α × EnqueueOptions))) (ok : Bool)
    (h : mapHas st.listeners (getTopicId topicKey) = false) :
    enqueue st topicKey payload options atomic ok =
      ⟨Except.error (EnqueueError.noListener (getTopicId topicKey)), st,
        atomic⟩ ∧
    enqueueErrorMessage (EnqueueError.noListener (getTopicId topicKey)) =
      "No listener for queue " ++ getTopicId topicKey := by
  refine ⟨?_, rfl⟩
  simp [enqueue, h]

/-- C2 witness: a fresh instance with no registration for `"t"`. -/
theorem C2_enqueue_no_listener_witness :
    mapHas (initialState Nat Nat false).listeners
      (getTopicId (Topic.str "t")) = false ∧
    (enqueue (initialState Nat Nat false) (Topic.str "t") (5 : Nat)
        ⟨none, none, none⟩ none true =
      ⟨Except.error (EnqueueError.noListener (getTopicId (Topic.str "t"))),
        initialState Nat Nat false, none⟩ ∧
     enqueueErrorMessage (EnqueueError.noListener (getTopicId (Topic.str "t")))
       = "No listener for queue " ++ getTopicId (Topic.str "t")) :=
  ⟨rfl, C2_enqueue_no_listener (initialState Nat Nat false) (Topic.str "t") 5
    ⟨none, none, none⟩ none true rfl⟩

/-- C3: round-trip of the envelope codec.  Decoding the envelope that
`enqueue` builds yields exactly the topic identifier of the original key
and the original payload — in the current variant, and in the legacy
variant whose envelope also carries the fallback keys taken from the
options — and the dispatch callback, given a handler registered under that
identifier, invokes it with the original payload unchanged. -/
theorem C3_envelope_roundtrip {α : Type} (topicKey : Topic) (payload : α)
    (options : EnqueueOptions) :
    decodeEnvelope (encodeEnvelope topicKey payload) =
      Except.ok (getTopicId topicKey, payload) ∧
    legacyDecode (legacyWrap topicKey payload options) =
      Except.ok (getTopicId topicKey, payload) ∧
    ∀ (H : Type) (listeners : List (String × H)) (listener : H),
      mapGet listeners (getTopicId topicKey) = some listener →
      dispatch listeners (encodeEnvelope topicKey payload) =
        Except.ok (listener, payload) := by
  refine ⟨rfl, rfl, ?_⟩
  intro H listeners listener hget
  simp [dispatch, encodeEnvelope, hget]

/-- C3 witness: topic `"t"`, payload `"x"`, a handler registered under
the identifier of `"t"`. -/
theorem C3_envelope_roundtrip_witness :
    decodeEnvelope (encodeEnvelope (Topic.str "t") "x") =
      Except.ok (getTopicId (Topic.str "t"), "x") ∧
    mapGet [(getTopicId (Topic.str "t"), (7 : Nat))]
      (getTopicId (Topic.str "t")) = some 7 ∧
    dispatch [(getTopicId (Topic.str "t"), (7 : Nat))]
      (encodeEnvelope (Topic.str "t") "x") = Except.ok (7, "x") :=
  ⟨(C3_envelope_roundtrip (Topic.str "t") "x" ⟨none, none, none⟩).1, rfl,
    (C3_envelope_roundtrip (Topic.str "t") "x" ⟨none, none, none⟩).2.2 Nat
      [(getTopicId (Topic.str "t"), 7)] 7 rfl⟩

/-- C4 counterexample: the claim quantifies over every pair of *distinct*
topics, but distinct topic keys can share one identifier, because
`JSON.stringify` renders every non-finite number as `null`.  Registering a
handler (tag 0) for `[NaN]` and then a handler (tag 1) for `[Infinity]`
overwrites the single map entry at `"[null]"`, and an envelope for `[NaN]`
is then delivered to `[Infinity]`'s handler — cross-delivery between two
distinct topics. -/
theorem C4_cross_delivery_counterexample :
    Topic.seq [JSPrim.num JSNumber.nan] ≠
      Topic.seq [JSPrim.num JSNumber.posInf] ∧
    dispatch
      (listenQueue
        (listenQueue (initialState Nat Nat false)
          (Topic.seq [JSPrim.num JSNumber.nan]) 0)
        (Topic.seq [JSPrim.num JSNumber.posInf]) 1).listeners
      (encodeEnvelope (Topic.seq [JSPrim.num JSNumber.nan]) (42 : Nat)) =
      Except.ok (1, 42) ∧
    (1 : Nat) ≠ 0 :=
  ⟨by decide, rfl, by decide⟩

/-- C4 amended: for every pair of topics whose topic identifiers differ
(in particular any distinct topics free of non-finite numbers), with
handlers registered for both on one instance, the dispatch callback
delivers every envelope for the one topic exactly to that topic's handler
with that topic's payload, never to the other's — regardless of the
initial state, hence of any interleaving of enqueues, which never touch
the listener map. -/
theorem C4_routing_distinct_ids {H α : Type} (st : RouterState H α)
    (tA tB : Topic) (hA hB : H) (pA pB : α)
    (hne : getTopicId tA ≠ getTopicId tB) :
    dispatch (listenQueue (listenQueue st tA hA) tB hB).listeners
        (encodeEnvelope tA pA) = Except.ok (hA, pA) ∧
    dispatch (listenQueue (listenQueue st tA hA) tB hB).listeners
        (encodeEnvelope tB pB) = Except.ok (hB, pB) := by
  have hL : (listenQueue (listenQueue st tA hA) tB hB).listeners =
      mapSet (mapSet st.listeners (getTopicId tA) hA) (getTopicId tB) hB := by
    rw [listenQueue_listeners, listenQueue_listeners]
  constructor
  · have hget : mapGet
        (mapSet (mapSet st.listeners (getTopicId tA) hA) (getTopicId tB) hB)
        (getTopicId tA) = some hA := by
      rw [mapGet_set_ne _ _ _ _ (Ne.symm hne), mapGet_set_self]
    simp [dispatch, encodeEnvelope, hL, hget]
  · have hget : mapGet
        (mapSet (mapSet st.listeners (getTopicId tA) hA) (getTopicId tB) hB)
        (getTopicId tB) = some hB := mapGet_set_self _ _ _
    simp [dispatch, encodeEnvelope, hL, hget]

/-- C4 witness: topics `"a"` and `"b"` with handler tags 0 and 1. -/
theorem C4_routing_distinct_ids_witness :
    getTopicId (Topic.str "a") ≠ getTopicId (Topic.str "b") ∧
    (dispatch
        (listenQueue (listenQueue (initialState Nat Nat false)
          (Topic.str "a") 0) (Topic.str "b") 1).listeners
        (encodeEnvelope (Topic.str "a") (10 : Nat)) = Except.ok (0, 10) ∧
     dispatch
        (listenQueue (listenQueue (initialState Nat Nat false)
          (Topic.str "a") 0) (Topic.str "b") 1).listeners
        (encodeEnvelope (Topic.str "b") (20 : Nat)) = Except.ok (1, 20)) :=
  ⟨by decide, C4_routing_distinct_ids (initialState Nat Nat false)
    (Topic.str "a") (Topic.str "b") 0 1 10 20 (by decide)⟩

/-- C5: any raw message whose `__mieszko_topics__` field is absent or is
not the single recognised value 1 makes the dispatch callback throw
`Unrecognised payload format` before any handler lookup, for every state
of the handler map — so no handler is invoked, not even one registered
for that message's topic. -/
theorem C5_unrecognised_format {H α : Type} (listeners : List (String × H))
    (msg : WrappedPayload α) (h : msg.marker ≠ some recognisedMarker) :
    dispatch listeners msg = Except.error DispatchError.unrecognisedFormat := by
  simp [dispatch, h]

/-- C5 witness: a marker-less message whose topic does have a registered
handler; the dispatch callback still rejects it. -/
theorem C5_unrecognised_format_witness :
    (WrappedPayload.mk (Topic.str "x") (7 : Nat) none).marker ≠
      some recognisedMarker ∧
    dispatch [(getTopicId (Topic.str "x"), (0 : Nat))]
      (WrappedPayload.mk (Topic.str "x") (7 : Nat) none) =
      Except.error DispatchError.unrecognisedFormat :=
  ⟨by decide, C5_unrecognised_format [(getTopicId (Topic.str "x"), 0)]
    (WrappedPayload.mk (Topic.str "x") 7 none) (by decide)⟩

/-- C6: a well-formed envelope (marker exactly 1) whose topic identifier
has no registered handler makes the dispatch callback throw
`No listener for queue <id>` naming that identifier, invoking no handler,
so the failure surfaces to the physical queue. -/
theorem C6_orphan_topic {H α : Type} (listeners : List (String × H))
    (msg : WrappedPayload α) (hm : msg.marker = some recognisedMarker)
    (hg : mapGet listeners (getTopicId msg.topicKey) = none) :
    dispatch listeners msg =
      Except.error (DispatchError.noListener (getTopicId msg.topicKey)) ∧
    dispatchErrorMessage (DispatchError.noListener (getTopicId msg.topicKey)) =
      "No listener for queue " ++ getTopicId msg.topicKey := by
  refine ⟨?_, rfl⟩
  simp [dispatch, hm, hg]

/-- C6 witness: a well-formed envelope for `"topicWithoutListener"`
hitting an instance that only has a handler for `"testTopic"`. -/
theorem C6_orphan_topic_witness :
    (encodeEnvelope (Topic.str "topicWithoutListener") (3 : Nat)).marker =
      some recognisedMarker ∧
    mapGet [(getTopicId (Topic.str "testTopic"), (0 : Nat))]
      (getTopicId (Topic.str "topicWithoutListener")) = none ∧
    dispatch [(getTopicId (Topic.str "testTopic"), (0 : Nat))]
      (encodeEnvelope (Topic.str "topicWithoutListener") (3 : Nat)) =
      Except.error (DispatchError.noListener
        (getTopicId (Topic.str "topicWithoutListener"))) :=
  ⟨rfl, rfl,
    (C6_orphan_topic [(getTopicId (Topic.str "testTopic"), 0)]
      (encodeEnvelope (Topic.str "topicWithoutListener") 3) rfl rfl).1⟩

/-- C7: with a handler registered and an atomic handle supplied,
`enqueue` stages exactly one envelope (with the options) onto the atomic
operation, leaves the router state — in particular the physical queue —
untouched, succeeds regardless of what a direct `kv.enqueue` would have
reported (so `EnqueueFailed` is impossible on this path), and the staged
envelope decodes back to the original payload. -/
theorem C7_atomic_staging {H α : Type} (st : RouterState H α)
    (topicKey : Topic) (payload : α) (options : EnqueueOptions)
    (ops : List (WrappedPayload α × EnqueueOptions)) (ok : Bool)
    (h : mapHas st.listeners (getTopicId topicKey) = true) :
    enqueue st topicKey payload options (some ops) ok =
      ⟨Except.ok (), st,
        some (ops ++ [(encodeEnvelope topicKey payload, options)])⟩ ∧
    decodeEnvelope (encodeEnvelope topicKey payload) =
      Except.ok (getTopicId topicKey, payload) := by
  refine ⟨?_, rfl⟩
  simp [enqueue, h]

/-- C7 witness: instance with a handler for `"t"`, fresh atomic
operation, and a failing `kv.enqueue` (`ok = false`) to show the direct
path is never consulted. -/
theorem C7_atomic_staging_witness :
    mapHas (listenQueue (initialState Nat Nat false) (Topic.str "t")
        9).listeners (getTopicId (Topic.str "t")) = true ∧
    enqueue (listenQueue (initialState Nat Nat false) (Topic.str "t") 9)
        (Topic.str "t") (5 : Nat) ⟨none, none, none⟩ (some []) false =
      ⟨Except.ok (),
        listenQueue (initialState Nat Nat false) (Topic.str "t") 9,
        some [(encodeEnvelope (Topic.str "t") 5, ⟨none, none, none⟩)]⟩ :=
  ⟨rfl,
    (C7_atomic_staging
      (listenQueue (initialState Nat Nat false) (Topic.str "t") 9)
      (Topic.str "t") 5 ⟨none, none, none⟩ [] false rfl).1⟩

/-- C8: with a handler registered, a direct `enqueue` hands the options
bag to `kv.enqueue` verbatim — the physical queue receives exactly the
`(envelope, options)` pair — and the legacy variant's envelope defaults
its `keysIfUndelivered` field to the empty list when that option is
omitted. -/
theorem C8_options_passthrough {H α : Type} (st : RouterState H α)
    (topicKey : Topic) (payload : α) (options : EnqueueOptions)
    (h : mapHas st.listeners (getTopicId topicKey) = true) :
    enqueue st topicKey payload options none true =
      ⟨Except.ok (),
        { st with kvQueue :=
            st.kvQueue ++ [(encodeEnvelope topicKey payload, options)] },
        none⟩ ∧
    (options.keysIfUndelivered = none →
      (legacyWrap topicKey payload options).keysIfUndelivered = []) := by
  constructor
  · simp [enqueue, h]
  · intro hk
    simp [legacyWrap, hk]

/-- C8 witness: the spec's example options `{backOffSchedule: [5000,
10000]}` with `keysIfUndelivered` omitted. -/
theorem C8_options_passthrough_witness :
    mapHas (listenQueue (initialState Nat Nat false) (Topic.str "t")
        9).listeners (getTopicId (Topic.str "t")) = true ∧
    enqueue (listenQueue (initialState Nat Nat false) (Topic.str "t") 9)
        (Topic.str "t") (5 : Nat) ⟨none, some [5000, 10000], none⟩ none true =
      ⟨Except.ok (),
        { listenQueue (initialState Nat Nat false) (Topic.str "t") 9 with
            kvQueue := [(encodeEnvelope (Topic.str "t") 5,
              ⟨none, some [5000, 10000], none⟩)] },
        none⟩ ∧
    (legacyWrap (Topic.str "t") (5 : Nat)
      ⟨none, some [5000, 10000], none⟩).keysIfUndelivered = [] :=
  ⟨rfl,
    (C8_options_passthrough
      (listenQueue (initialState Nat Nat false) (Topic.str "t") 9)
      (Topic.str "t") 5 ⟨none, some [5000, 10000], none⟩ rfl).1,
    (C8_options_passthrough
      (listenQueue (initialState Nat Nat false) (Topic.str "t") 9)
      (Topic.str "t") 5 ⟨none, some [5000, 10000], none⟩ rfl).2 rfl⟩

/-- C10: only `listenQueue` mutates the handler map.  Every `enqueue`
call — any options, any atomic handle, any `kv.enqueue` outcome, hence
both success and both error paths — every dispatch-callback invocation,
and `close` leave the `listeners` map exactly as it was. -/
theorem C10_listeners_frame {H α : Type} (st : RouterState H α)
    (topicKey : Topic) (payload : α) (options : EnqueueOptions)
    (atomic : Option (List (WrappedPayload α × EnqueueOptions))) (ok : Bool)
    (msg : WrappedPayload α) :
    (enqueue st topicKey payload options atomic ok).state.listeners =
      st.listeners ∧
    (dispatchStep st msg).2.listeners = st.listeners ∧
    (closeConn st).listeners = st.listeners := by
  refine ⟨?_, rfl, rfl⟩
  by_cases h : mapHas st.listeners (getTopicId topicKey) = false
  · simp [enqueue, h]
  · cases atomic with
    | some ops => simp [enqueue, h]
    | none =>
      cases ok with
      | true => simp [enqueue, h]
      | false => simp [enqueue, h]

/-- C9 counterexample: the topic identifier is not injective on the full
topic-key domain.  `[NaN]` and `[Infinity]` are distinct topic keys —
distinct JS numbers, both admitted by the type
`string | (string | number | boolean)[]` — yet `JSON.stringify` renders
every non-finite number as `null`, so both keys get the identifier
`"[null]"`. -/
theorem C9_identifier_collision_counterexample :
    Topic.seq [JSPrim.num JSNumber.nan] ≠
      Topic.seq [JSPrim.num JSNumber.posInf] ∧
    getTopicId (Topic.seq [JSPrim.num JSNumber.nan]) =
      getTopicId (Topic.seq [JSPrim.num JSNumber.posInf]) :=
  ⟨by decide, rfl⟩

/-- C9 amended: the canonical topic identifier is injective on every pair
of topic keys whose numeric elements are finite doubles (equivalently:
keys free of `NaN` and `±Infinity`, whose canonical strings are nonempty
words over the numeric alphabet): two such keys with equal identifier
strings are equal. -/
theorem C9_identifier_injective_on_finite (t1 t2 : Topic)
    (w1 : wfTopic t1 = true) (w2 : wfTopic t2 = true)
    (h : getTopicId t1 = getTopicId t2) : t1 = t2 :=
  getTopicId_injective t1 t2 w1 w2 h

/-- C9 witness: a mixed finite-number/string/boolean sequence key. -/
theorem C9_identifier_injective_on_finite_witness :
    wfTopic (Topic.seq [JSPrim.num (JSNumber.finite "1"), JSPrim.str "x",
      JSPrim.bool true]) = true ∧
    Topic.seq [JSPrim.num (JSNumber.finite "1"), JSPrim.str "x",
      JSPrim.bool true] =
      Topic.seq [JSPrim.num (JSNumber.finite "1"), JSPrim.str "x",
        JSPrim.bool true] :=
  ⟨by decide,
    C9_identifier_injective_on_finite _ _ (by decide) (by decide) rfl⟩

end KvTopics
